import Mathlib

/-!
Verification development for the etymmap relation-extraction core.

Shallow embedding of the relevant parts of the source tree:
* `etymmap/graph/relation_types.py` (relation-type ontology),
* `etymmap/graph/nodes.py` (node identity),
* `etymmap/graph/reduction.py` (the reduced relation store),
* `etymmap/extraction/state/entities.py` (entity merging),
* `etymmap/extraction/defaults/lexicon.py` (lexicon lookup),
* `etymmap/extraction/section_extractor.py` (etymology chain interpretation).

Python conventions used by the embedding:
* Machine-level object identity (`id(x)`, default `__eq__`/`__hash__`) is
  modelled by an explicit `addr : Nat` field; in a well-formed heap distinct
  live objects have distinct addresses.
* `None` is modelled by `Option.none`; Python truthiness of strings and
  booleans is modelled by explicit `pyTruthy...` helpers (empty string,
  `None` and `False` are falsy).
* Exceptions are modelled with `Except`; an `except` clause that catches a
  specific error kind only handles that constructor.
-/

namespace Etymmap

/-- Closed enumeration of relation types, from `RelationType` in
`etymmap/graph/relation_types.py`. -/
inductive RelationType where
  | RELATED
  | SIBLING
  | COGNATE
  | NONCOGNATE
  | DOUBLET
  | ALTFORM
  | ORIGIN
  | HISTORICAL
  | INHERITANCE
  | DERIVATION
  | ROOT
  | BORROWING
  | LEARNED_BORROWING
  | SEMI_LEARNED_BORROWING
  | ORTHOGRAPHIC_BORROWING
  | UNADAPTED_BORROWING
  | CALQUE
  | PARTIAL_CALQUE
  | SEMANTIC_LOAN
  | PSM
  | MORPHOLOGICAL
  | AFFIX
  | PREFIX
  | INFIX
  | SUFFIX
  | CONFIX
  | CIRCUMFIX
  | COMPOUND
  | UNIVERBATION
  | BLENDING
  | CLIPPING
  | BACKFORM
  | ABBREV
  | SHORTENING
  | OTHER
  | UNKNOWN
  | EPONYM
  | ONOM
  deriving DecidableEq, Fintype

/-- Ontology tree node: a relation type together with its child subtrees.
Mirrors the nested tuple/list shape of the `_ontology` literal. -/
inductive OntoTree where
  | mk : RelationType → List OntoTree → OntoTree

/-- The `_ontology` literal of `RelationType` (`relation_types.py`, lines 64-102),
transcribed node for node. A bare enum member is a leaf (empty child list). -/
def ontology : OntoTree :=
  .mk .RELATED
    [ .mk .SIBLING [.mk .COGNATE [], .mk .NONCOGNATE [], .mk .DOUBLET [], .mk .ALTFORM []],
      .mk .ORIGIN
        [ .mk .HISTORICAL [.mk .INHERITANCE [], .mk .DERIVATION [], .mk .ROOT []],
          .mk .BORROWING
            [ .mk .LEARNED_BORROWING [], .mk .SEMI_LEARNED_BORROWING [],
              .mk .ORTHOGRAPHIC_BORROWING [], .mk .UNADAPTED_BORROWING [],
              .mk .CALQUE [], .mk .PARTIAL_CALQUE [], .mk .SEMANTIC_LOAN [], .mk .PSM []],
          .mk .MORPHOLOGICAL
            [ .mk .AFFIX
                [.mk .PREFIX [], .mk .INFIX [], .mk .SUFFIX [], .mk .CONFIX [], .mk .CIRCUMFIX []],
              .mk .COMPOUND [], .mk .UNIVERBATION [], .mk .BLENDING [], .mk .CLIPPING [],
              .mk .BACKFORM [], .mk .ABBREV [], .mk .SHORTENING []],
          .mk .OTHER [.mk .UNKNOWN [], .mk .EPONYM [], .mk .ONOM []]]]

mutual

/-- Port of `_make_is_a_map` (`relation_types.py`, lines 5-21): collect, for every
node of the ontology tree, the set of its ancestors including itself.  The Python
code fills a dict; since tree nodes are unique, an association list is equivalent. -/
def makeIsAMap : OntoTree → List RelationType → List (RelationType × List RelationType)
  | .mk t children, ancestors =>
      makeIsAMapList children (t :: ancestors) ++ [(t, t :: ancestors)]

/-- Recursion of `_make_is_a_map` over the child list. -/
def makeIsAMapList : List OntoTree → List RelationType → List (RelationType × List RelationType)
  | [], _ => []
  | c :: cs, ancestors => makeIsAMap c ancestors ++ makeIsAMapList cs ancestors

end

/-- The precomputed map `type → set of ancestors (inclusive)` used by `is_a`. -/
def isAMap : List (RelationType × List RelationType) := makeIsAMap ontology []

/-- Port of `RelationType.is_a` (`relation_types.py`, lines 104-105):
`other.value in _map[self.value]`.  Every type is a key of the map, so the
`getD []` default is never hit. -/
def RelationType.is_a (t u : RelationType) : Bool :=
  (isAMap.lookup t).getD [] |>.contains u

/-- Port of the `directed` property (`relation_types.py`, lines 111-113). -/
def RelationType.directed (t : RelationType) : Bool :=
  t.is_a .ORIGIN

/-! ## Nodes (`etymmap/graph/nodes.py`)

`LexemeBase` stores `term` and `language` in slots and exposes a `sense_idx`
property and an `id` property `(term, language, sense_idx)`.  Neither `Node`
nor `LexemeBase` defines `__eq__` or `__hash__`, so Python compares and hashes
these objects by identity (the default from `object`), i.e. by address.
The embedding makes the address explicit. -/

/-- A `LexemeBase` object: the explicit `addr` field models the CPython object
address `id(obj)`; `term`, `language` and `sense_idx` are the slot/property
values.  `language = none` models a missing or `None` language (e.g. an
`Entity` node has no `language` attribute at all). -/
structure LexemeBase where
  addr : Nat
  term : String
  language : Option String
  sense_idx : Int
  deriving DecidableEq

/-- Models `SingleMeaningStub(term, language)` (`nodes.py`, lines 61-69): a lexeme
with `sense_idx` fixed to `0`. -/
def SingleMeaningStub (addr : Nat) (term language : String) : LexemeBase :=
  ⟨addr, term, some language, 0⟩

/-- Python `==` on two `LexemeBase` objects.  No `__eq__` is defined anywhere in
the class hierarchy, so this is `object.__eq__`: identity, i.e. equality of
addresses.  (In a well-formed heap two distinct live objects never share an
address, so this is also `is`.) -/
def pyLexemeEq (a b : LexemeBase) : Bool :=
  a.addr == b.addr

/-- The `id` property of `LexemeBase` (`nodes.py`, lines 42-44):
`(self.term, self.language, self.sense_idx)`. -/
def LexemeBase.pyId (l : LexemeBase) : String × Option String × Int :=
  (l.term, l.language, l.sense_idx)

/-! ## Relations and the reduced relation store (`etymmap/graph/reduction.py`)

Graphs are embedded as edge lists.  `DiGraph` stores (`related`, `origin`)
keep at most one edge per ordered node pair; `MultiDiGraph` stores (`sibling`,
`origin_cycles_and_parallel_edges`, the final `_graph`) key parallel edges by
the relation type passed to `add_edge`.  networkx keys nodes by hash/equality,
which for these node objects is identity, i.e. the address.  networkx keeps
isolated nodes after edge removal; the embedding tracks only edges, which is
observationally equivalent for every operation modelled here (cycle and
component computations are never affected by isolated nodes, because a
self-loop-free edge never has both endpoints inside a singleton component). -/

/-- Python truthiness of an optional string: `None` and `""` are falsy. -/
def pyTruthyStr : Option String → Bool
  | none => false
  | some s => !(s == "")

/-- Python truthiness of an optional bool: only `True` is truthy. -/
def pyTruthyBool : Option Bool → Bool
  | some true => true
  | _ => false

/-- Python `a or b` on optional strings. -/
def pyOrStr (a b : Option String) : Option String :=
  if pyTruthyStr a then a else b

/-- Python `a or b` on optional bools. -/
def pyOrBool (a b : Option Bool) : Option Bool :=
  if pyTruthyBool a then a else b

/-- Models `RelationAttributes` (`relations.py`, lines 42-62): the edge data.  The
`sub` and `debug` slots are omitted from the embedding: they are copied on
insertion but never merged (`merge_relation_attrs` has `todo merge remaining
attrs`) and never read by any operation modelled here. -/
structure RelationAttributes where
  type : RelationType
  text : Option String
  uncertain : Option Bool
  deriving DecidableEq

/-- Models `Relation` (`relations.py`, lines 89-95). -/
structure Relation where
  src : LexemeBase
  tgt : LexemeBase
  attrs : RelationAttributes
  deriving DecidableEq

/-- An edge of a `DiGraph` store (at most one per ordered node pair). -/
structure DiEdge where
  src : LexemeBase
  tgt : LexemeBase
  data : RelationAttributes
  deriving DecidableEq

/-- An edge of a `MultiDiGraph` store, keyed by the relation type passed to
`add_edge`.  NOTE: after an in-place merge the key can go stale while
`data.type` changes, exactly as in the source (the edge keys of
`origin_cycles_and_parallel_edges` are plain dict keys, set once). -/
structure MultiEdge where
  src : LexemeBase
  tgt : LexemeBase
  key : RelationType
  data : RelationAttributes
  deriving DecidableEq

/-- Object identity of two nodes (how networkx dicts compare these nodes). -/
def sameObj (a b : LexemeBase) : Bool :=
  a.addr == b.addr

/-- Node membership by identity. -/
def memObj (v : LexemeBase) (s : List LexemeBase) : Bool :=
  s.any (fun x => sameObj x v)

/-- Models `G.get_edge_data(u, v)` on a `DiGraph` edge list. -/
def getEdgeData (g : List DiEdge) (u v : LexemeBase) : Option RelationAttributes :=
  (g.find? (fun e => sameObj e.src u && sameObj e.tgt v)).map (·.data)

/-- Models `G.add_edge(u, v, **attrs)` on a `DiGraph`: update the edge data if the
edge exists (the attrs cover every slot, so the dict update is a full
overwrite), else append.  `add_edge` always copies the attrs into a fresh
edge-attribute object. -/
def setDiEdge (g : List DiEdge) (u v : LexemeBase) (d : RelationAttributes) : List DiEdge :=
  if g.any (fun e => sameObj e.src u && sameObj e.tgt v) then
    g.map (fun e => if sameObj e.src u && sameObj e.tgt v then { e with data := d } else e)
  else
    g ++ [⟨u, v, d⟩]

/-- Models `G.remove_edge(u, v)` on a `DiGraph`; absence is silently ignored because
every removal site in the source wraps the call in `try ... except`. -/
def removeDiEdge (g : List DiEdge) (u v : LexemeBase) : List DiEdge :=
  g.filter (fun e => !(sameObj e.src u && sameObj e.tgt v))

/-- Models `G.add_edge(u, v, key, **attrs)` on a `MultiDiGraph`: update the data at
an existing `(u, v, key)`, else append a new keyed edge. -/
def mAddEdge (g : List MultiEdge) (u v : LexemeBase) (k : RelationType)
    (d : RelationAttributes) : List MultiEdge :=
  if g.any (fun e => sameObj e.src u && sameObj e.tgt v && e.key == k) then
    g.map (fun e =>
      if sameObj e.src u && sameObj e.tgt v && e.key == k then { e with data := d } else e)
  else
    g ++ [⟨u, v, k, d⟩]

/-- The `ReducedRelations` state (`reduction.py`, lines 103-117): the four
relation stores, the (never set) `finalized` flag, the accumulated `_graph`,
and the optional phylogenetic language tree (a directed graph over language
codes, embedded as an edge list). -/
structure ReducedRelations where
  related : List DiEdge
  sibling : List MultiEdge
  origin : List DiEdge
  ocp : List MultiEdge
  finalized : Bool
  graph : List MultiEdge
  language_tree : Option (List (String × String))
  deriving DecidableEq

/-- A fresh `ReducedRelations()` with an optional language tree. -/
def emptyStore (tree : Option (List (String × String))) : ReducedRelations :=
  ⟨[], [], [], [], false, [], tree⟩

/-- Models `merge_relation_attrs(attrs1, attrs2)` (`reduction.py`, lines 296-305):
`text` values are joined with `"; "` (falsy text is skipped), `uncertain` is
the Python `or`. -/
def mergeRelationAttrs (a1 a2 : RelationAttributes) : RelationAttributes :=
  let text :=
    if pyTruthyStr a1.text then
      if pyTruthyStr a2.text then some (a1.text.getD "" ++ "; " ++ a2.text.getD "")
      else a1.text
    else if pyTruthyStr a2.text then a2.text
    else a1.text
  { a1 with text := text, uncertain := pyOrBool a1.uncertain a2.uncertain }

/-- Models `merge_if_possible(update_attrs, existing_attrs)` (`reduction.py`, lines
228-248).  Returns the merged existing attrs on success (`True` in the
source), `none` on incompatibility.  When the update type is strictly more
specific, the existing type is replaced after the attribute merge. -/
def mergeIfPossible (update existing : RelationAttributes) : Option RelationAttributes :=
  if existing.type.is_a update.type then
    some (mergeRelationAttrs existing update)
  else if update.type.is_a existing.type then
    some { mergeRelationAttrs existing update with type := update.type }
  else
    none

/-- Nodes of a language tree: every endpoint of an edge. -/
def treeNodes (tree : List (String × String)) : List String :=
  (tree.map (·.1) ++ tree.map (·.2)).dedup

/-- One saturation pass extending the set of reached nodes along tree edges. -/
def reachStepStr (tree : List (String × String)) (s : List String) : List String :=
  s ++ ((tree.filter (fun e => s.contains e.1 && !(s.contains e.2))).map (·.2)).dedup

/-- Fuel-bounded saturation; fuel `(treeNodes tree).length` reaches a fixpoint. -/
def reachSetStr (tree : List (String × String)) : Nat → List String → List String
  | 0, s => s
  | n + 1, s => reachSetStr tree n (reachStepStr tree s)

/-- Models `nx.shortest_path(tree, a, b)` succeeds iff both `a` and `b` are nodes of
the tree (else `NodeNotFound`) and `b` is reachable from `a`, reflexively
(else `NetworkXNoPath`). -/
def hasPath (tree : List (String × String)) (a b : String) : Bool :=
  (treeNodes tree).contains a && (treeNodes tree).contains b &&
    (reachSetStr tree (treeNodes tree).length [a]).contains b

/-- Models `order_hist_accurate` (`reduction.py`, lines 145-159): for a HISTORICAL
descendant whose endpoints both carry a language, swap source and target when
the tree has a path from the target language to the source language.  A
missing language attribute (`AttributeError`) or a failing path lookup
(`NodeNotFound` / `NetworkXNoPath`) leaves the orientation unchanged. -/
def orderHistAccurate (tree : List (String × String)) (src tgt : LexemeBase)
    (t : RelationType) : LexemeBase × LexemeBase :=
  if t.is_a .HISTORICAL then
    match src.language, tgt.language with
    | some srcLang, some tgtLang =>
        if hasPath tree tgtLang srcLang then (tgt, src) else (src, tgt)
    | _, _ => (src, tgt)
  else
    (src, tgt)

/-- The loop `for more_parallel_edge_data in more_parallel_edges.values()` of
`_add_directed`: merge the update into the first compatible
`origin_cycles_and_parallel_edges` entry for `(u, v)`, in insertion order,
leaving the stale edge key untouched. -/
def tryMergeOcp : List MultiEdge → LexemeBase → LexemeBase → RelationAttributes →
    Option (List MultiEdge)
  | [], _, _, _ => none
  | e :: es, u, v, upd =>
      if sameObj e.src u && sameObj e.tgt v then
        match mergeIfPossible upd e.data with
        | some merged => some ({ e with data := merged } :: es)
        | none => (tryMergeOcp es u v upd).map (e :: ·)
      else
        (tryMergeOcp es u v upd).map (e :: ·)

/-- Models `_add_directed` (`reduction.py`, lines 161-226).  Note that the
canonical `undirected` pair is ordered by the BUILTIN `id(...)`, i.e. by
object address, and that an empty language tree is falsy in Python (an empty
tree also never has a path, so the embedding folds both checks into one). -/
def addDirected (st : ReducedRelations) (r : Relation) : ReducedRelations :=
  let reltype := r.attrs.type
  let (src, tgt) :=
    match st.language_tree with
    | some tree => if tree.isEmpty then (r.src, r.tgt) else orderHistAccurate tree r.src r.tgt reltype
    | none => (r.src, r.tgt)
  let undirected := if src.addr < tgt.addr then (src, tgt) else (tgt, src)
  let st := { st with related := removeDiEdge st.related undirected.1 undirected.2 }
  match getEdgeData st.origin src tgt with
  | some parallelData =>
      match mergeIfPossible r.attrs parallelData with
      | some merged => { st with origin := setDiEdge st.origin src tgt merged }
      | none =>
          match tryMergeOcp st.ocp src tgt r.attrs with
          | some ocp2 => { st with ocp := ocp2 }
          | none => { st with ocp := mAddEdge st.ocp src tgt reltype r.attrs }
  | none =>
      match getEdgeData st.origin tgt src with
      | some _ => { st with ocp := mAddEdge st.ocp src tgt reltype r.attrs }
      | none => { st with origin := setDiEdge st.origin src tgt r.attrs }

/-- Replace the data of the first `sibling` edge at `(u, v)` whose key is `k`. -/
def setSiblingData (g : List MultiEdge) (u v : LexemeBase) (k : RelationType)
    (d : RelationAttributes) : List MultiEdge :=
  g.map (fun e =>
    if sameObj e.src u && sameObj e.tgt v && e.key == k then { e with data := d } else e)

/-- Models `_add_sibling` (`reduction.py`, lines 250-269): canonicalize by address,
drop a parallel `related` edge, then merge into the sibling edge keyed by the
relation type or insert a new one. -/
def addSibling (st : ReducedRelations) (r : Relation) : ReducedRelations :=
  let reltype := r.attrs.type
  let (src, tgt) := if r.src.addr < r.tgt.addr then (r.src, r.tgt) else (r.tgt, r.src)
  let st := { st with related := removeDiEdge st.related src tgt }
  match st.sibling.find? (fun e => sameObj e.src src && sameObj e.tgt tgt && e.key == reltype) with
  | some e =>
      { st with sibling := setSiblingData st.sibling src tgt reltype (mergeRelationAttrs e.data r.attrs) }
  | none => { st with sibling := st.sibling ++ [⟨src, tgt, reltype, r.attrs⟩] }

/-- Replace the data of the first `sibling` edge at `(u, v)` (any key):
the target of `next(iter(all_attrs.values()))` in `_add_related`. -/
def setFirstSiblingData : List MultiEdge → LexemeBase → LexemeBase → RelationAttributes →
    List MultiEdge
  | [], _, _, _ => []
  | e :: es, u, v, d =>
      if sameObj e.src u && sameObj e.tgt v then { e with data := d } :: es
      else e :: setFirstSiblingData es u v d

/-- Models `_add_related` (`reduction.py`, lines 271-294): canonicalize by address;
if an `origin` edge (either direction) or any `sibling` edge exists between
the endpoints, merge into that edge's attrs; else merge into or insert the
`related` edge. -/
def addRelated (st : ReducedRelations) (r : Relation) : ReducedRelations :=
  let (src, tgt) := if r.src.addr < r.tgt.addr then (r.src, r.tgt) else (r.tgt, r.src)
  match getEdgeData st.origin src tgt with
  | some d => { st with origin := setDiEdge st.origin src tgt (mergeRelationAttrs d r.attrs) }
  | none =>
      match getEdgeData st.origin tgt src with
      | some d => { st with origin := setDiEdge st.origin tgt src (mergeRelationAttrs d r.attrs) }
      | none =>
          match st.sibling.find? (fun e => sameObj e.src src && sameObj e.tgt tgt) with
          | some e =>
              { st with sibling := setFirstSiblingData st.sibling src tgt (mergeRelationAttrs e.data r.attrs) }
          | none =>
              match getEdgeData st.related src tgt with
              | some d => { st with related := setDiEdge st.related src tgt (mergeRelationAttrs d r.attrs) }
              | none => { st with related := setDiEdge st.related src tgt r.attrs }

/-- Models `ReducedRelations.add` (`reduction.py`, lines 119-143).  The guard
`if self.finalized: raise ValueError(...)` is embedded faithfully — note that
nothing in the source ever sets `self.finalized = True`, so the error branch
is unreachable in any actual run.  Self-loops (`src == tgt`, i.e. identity)
are dropped, then the relation is dispatched on its type. -/
def ReducedRelations.add (st : ReducedRelations) (r : Relation) :
    Except String ReducedRelations :=
  if st.finalized then .error "Cannot add to finalized graph."
  else if sameObj r.src r.tgt then .ok st
  else if r.attrs.type.directed then .ok (addDirected st r)
  else if r.attrs.type.is_a .SIBLING then .ok (addSibling st r)
  else .ok (addRelated st r)

/-- Node list of a `DiGraph` edge list (insertion order, deduplicated by
identity). -/
def nodesOfEdges (g : List DiEdge) : List LexemeBase :=
  (g.flatMap (fun e => [e.src, e.tgt])).foldl
    (fun acc v => if memObj v acc then acc else acc ++ [v]) []

/-- Is there an edge `u → v`? -/
def hasEdge (g : List DiEdge) (u v : LexemeBase) : Bool :=
  g.any (fun e => sameObj e.src u && sameObj e.tgt v)

/-- Successors of `u`. -/
def succsOf (g : List DiEdge) (u : LexemeBase) : List LexemeBase :=
  (g.filter (fun e => sameObj e.src u)).map (·.tgt)

/-- Depth-first enumeration of the elementary cycles through `start` whose
other nodes all have a larger address: `path` is the reversed simple path so
far, `current` its head; a closing edge `current → start` emits one cycle. -/
def dfsCycles (g : List DiEdge) (start : LexemeBase) :
    Nat → List LexemeBase → LexemeBase → List (List LexemeBase)
  | fuel, path, current =>
      let closing := if hasEdge g current start then [path.reverse] else []
      match fuel with
      | 0 => closing
      | fuel + 1 =>
          closing ++
            ((succsOf g current).filter
                (fun v => start.addr < v.addr && !(memObj v path))).flatMap
              (fun v => dfsCycles g start fuel (v :: path) v)

/-- Models `nx.simple_cycles(G)`: every elementary cycle of `G`, each exactly once, as
a node list (a self-loop is the singleton cycle).  The embedding enumerates
each cycle rooted at its minimal-address node; the source's Johnson ordering
differs, but every use below folds a per-cycle shelving step whose net effect
is independent of enumeration order (each cycle edge is moved exactly once,
later occurrences are skipped by the `try/except`). -/
def simpleCycles (g : List DiEdge) : List (List LexemeBase) :=
  (nodesOfEdges g).flatMap (fun s => dfsCycles g s (nodesOfEdges g).length [s] s)

/-- Models `zip(cycle, cycle[1:] + cycle[:1])`. -/
def cyclePairs (c : List LexemeBase) : List (LexemeBase × LexemeBase) :=
  c.zip (c.drop 1 ++ c.take 1)

/-- The shelving loop body shared by `remove_cycles` and `inplace_remove_cycles`
(`reduction.py`, lines 317-330 and 343-356): move every still-present edge of
the cycle from `origin` to `origin_cycles_and_parallel_edges` (key = its
current attribute type); an already-moved edge raises and is skipped. -/
def shelveCycle (st : ReducedRelations) (c : List LexemeBase) : ReducedRelations :=
  (cyclePairs c).foldl
    (fun st p =>
      match getEdgeData st.origin p.1 p.2 with
      | some d =>
          { st with
            ocp := mAddEdge st.ocp p.1 p.2 d.type d,
            origin := removeDiEdge st.origin p.1 p.2 }
      | none => st)
    st

/-- Models `remove_cycles` (`reduction.py`, lines 307-331): enumerate all simple
cycles of `origin` up front, then shelve each one. -/
def removeCycles (st : ReducedRelations) : ReducedRelations :=
  (simpleCycles st.origin).foldl shelveCycle st

/-- Models `inplace_remove_cycles` (`reduction.py`, lines 333-423).  The source runs
Johnson's algorithm over a frozen edge copy (`subG`, never mutated by the
shelving) restricted to strongly connected components of size > 2, shelving
each found cycle from the live `origin` via the same `try/except` loop.
Enumerating over the frozen copy yields exactly the elementary cycles of
length ≥ 3 of the input (1- and 2-cycles never reach `origin`: self-loops and
antiparallel pairs are filtered at insertion), so the net effect equals
shelving every such cycle, in any order. -/
def inplaceRemoveCycles (st : ReducedRelations) : ReducedRelations :=
  ((simpleCycles st.origin).filter (fun c => 2 < c.length)).foldl shelveCycle st

/-- Fuel-bounded saturation of reached nodes along edges. -/
def reachSetNodes (g : List DiEdge) : Nat → List LexemeBase → List LexemeBase
  | 0, s => s
  | n + 1, s =>
      reachSetNodes g n
        (s ++ ((g.filter (fun e => memObj e.src s && !(memObj e.tgt s))).map (·.tgt)).foldl
          (fun acc v => if memObj v acc then acc else acc ++ [v]) [])

/-- Is `w` reachable from `v` (reflexively)? -/
def reachableNode (g : List DiEdge) (v w : LexemeBase) : Bool :=
  memObj w (reachSetNodes g (nodesOfEdges g).length [v])

/-- Does a path `u → … → w` of length ≥ 2 exist?  On a DAG this characterizes
exactly the edges removed by `difference(G, nx.transitive_reduction(G))`. -/
def hasPathLen2 (g : List DiEdge) (u w : LexemeBase) : Bool :=
  g.any (fun e => sameObj e.src u && !(sameObj e.tgt w) && reachableNode g e.tgt w)

/-- Models `transitive_reduce_directed` (`reduction.py`, lines 425-443): remove
cycles (in-place variant by default), then delete every `origin` edge that is
transitively implied by a longer path. -/
def transitiveReduceDirected (st : ReducedRelations) (rmCyclesInplace : Bool) :
    ReducedRelations :=
  let st := if rmCyclesInplace then inplaceRemoveCycles st else removeCycles st
  { st with origin := st.origin.filter (fun e => !(hasPathLen2 st.origin e.src e.tgt)) }

/-- Merge the components containing the endpoints of one edge (union-find
step of the weakly-connected-components fold). -/
def addEdgeComp (comps : List (List LexemeBase)) (e : LexemeBase × LexemeBase) :
    List (List LexemeBase) :=
  let parts := comps.partition (fun c => memObj e.1 c || memObj e.2 c)
  let merged := parts.1.flatten
  let merged := if memObj e.1 merged then merged else merged ++ [e.1]
  let merged := if memObj e.2 merged then merged else merged ++ [e.2]
  merged :: parts.2

/-- Models `nx.weakly_connected_components` restricted to non-isolated nodes.
networkx additionally yields singleton components for isolated nodes; those
can never contain both endpoints of a (self-loop-free) `related` edge, so they
are irrelevant to `reduce_unspecific`. -/
def wcc (edges : List (LexemeBase × LexemeBase)) : List (List LexemeBase) :=
  edges.foldl addEdgeComp []

/-- Models `reduce_unspecific` (`reduction.py`, lines 445-466): for every weakly
connected component of `origin` or `sibling`, drop every `related` edge whose
endpoints both lie in the component. -/
def reduceUnspecific (st : ReducedRelations) : ReducedRelations :=
  let comps :=
    wcc (st.origin.map (fun e => (e.src, e.tgt))) ++
      wcc (st.sibling.map (fun e => (e.src, e.tgt)))
  { st with
    related :=
      comps.foldl
        (fun rel comp => rel.filter (fun e => !(memObj e.src comp && memObj e.tgt comp)))
        st.related }

/-- Models `finalize` (`reduction.py`, lines 468-489): optionally transitively
reduce and prune, merge the four stores into the multi-typed `_graph`
(`related`/`origin` keyed by their current attribute type, `sibling`/`ocp` by
their stored keys), and clear the stores.  Embedded faithfully, INCLUDING the
fact that `self.finalized` is never assigned: the early-return guard checks a
flag that no source line ever sets. -/
def ReducedRelations.finalize (st : ReducedRelations)
    (transitiveReduce : Bool := true) (reduceUnspec : Bool := true)
    (rmCyclesInplace : Bool := true) : ReducedRelations :=
  if st.finalized then st
  else
    let st := if transitiveReduce then transitiveReduceDirected st rmCyclesInplace else st
    let st := if reduceUnspec then reduceUnspecific st else st
    let g := st.graph
    let g := st.related.foldl (fun g e => mAddEdge g e.src e.tgt e.data.type e.data) g
    let g := st.origin.foldl (fun g e => mAddEdge g e.src e.tgt e.data.type e.data) g
    let g := st.sibling.foldl (fun g e => mAddEdge g e.src e.tgt e.key e.data) g
    let g := st.ocp.foldl (fun g e => mAddEdge g e.src e.tgt e.key e.data) g
    { st with related := [], sibling := [], origin := [], ocp := [], graph := g }

/-! ## Concrete reduction scenarios -/

/-- Models `RelationAttributes(type)` with default `text`/`uncertain`. -/
def mkAttrs (t : RelationType) : RelationAttributes :=
  ⟨t, none, none⟩

/-- Scenario plumbing: run `add` and unwrap the result (no scenario below ever
hits the error branch; on error the state is returned unchanged). -/
def addOrSame (st : ReducedRelations) (r : Relation) : ReducedRelations :=
  match st.add r with
  | .ok st2 => st2
  | .error _ => st

/-- Scenario plumbing: a sequence of `add` calls. -/
def addAll (st : ReducedRelations) (rs : List Relation) : ReducedRelations :=
  rs.foldl addOrSame st

/-- A `DiGraph` is acyclic iff it has no simple cycle. -/
def isAcyclic (g : List DiEdge) : Bool :=
  simpleCycles g |>.isEmpty

/-- Claim C3 scenario, node A. -/
def c3A : LexemeBase := SingleMeaningStub 0 "wA" "lA"

/-- Claim C3 scenario, node B. -/
def c3B : LexemeBase := SingleMeaningStub 1 "wB" "lB"

/-- Claim C3 scenario: add `(A,B,RELATED)`, `(A,B,LEARNED_BORROWING)`,
`(A,B,BORROWING)` to an empty store, then finalize with defaults. -/
def c3Final : ReducedRelations :=
  (addAll (emptyStore none)
    [ ⟨c3A, c3B, mkAttrs .RELATED⟩,
      ⟨c3A, c3B, mkAttrs .LEARNED_BORROWING⟩,
      ⟨c3A, c3B, mkAttrs .BORROWING⟩ ]).finalize

/-- Claim C6 scenario nodes. -/
def c6N : Nat → LexemeBase := fun i => SingleMeaningStub i (toString i) "l"

/-- Claim C6 scenario: the four COMPOUND edges `A→B, B→C, C→A, C→D` added to an
empty store (no language tree), then `remove_cycles`. -/
def c6State : ReducedRelations :=
  removeCycles
    (addAll (emptyStore none)
      [ ⟨c6N 0, c6N 1, mkAttrs .COMPOUND⟩,
        ⟨c6N 1, c6N 2, mkAttrs .COMPOUND⟩,
        ⟨c6N 2, c6N 0, mkAttrs .COMPOUND⟩,
        ⟨c6N 2, c6N 3, mkAttrs .COMPOUND⟩ ])

/-- Claim C7 witness scenario: the language tree `ang → enm → en`. -/
def c7Tree : List (String × String) := [("ang", "enm"), ("enm", "en")]

/-- Claim C9 scenario: one logical entry sequence (`add` of a RELATED relation
between the lexemes `(w1, l1)` and `(w2, l2)`, then `finalize`), run with the
two node objects living at addresses `a` and `b`; the final graph is projected
to the run-independent node identity `(term, language)`. -/
def c9Run (a b : Nat) : List ((String × Option String) × (String × Option String) × RelationType) :=
  ((addOrSame (emptyStore none)
      ⟨SingleMeaningStub a "w1" "l1", SingleMeaningStub b "w2" "l2", mkAttrs .RELATED⟩).finalize).graph.map
    (fun e => ((e.src.term, e.src.language), (e.tgt.term, e.tgt.language), e.key))

/-- Claim C1 scenario: a store holding one RELATED relation. -/
def c1Store : ReducedRelations :=
  addOrSame (emptyStore none) ⟨SingleMeaningStub 0 "w0" "l0", SingleMeaningStub 1 "w1" "l1", mkAttrs .RELATED⟩

/-- Claim C1 scenario: the relation added AFTER `finalize()` was called. -/
def c1Late : Relation :=
  ⟨SingleMeaningStub 2 "w2" "l2", SingleMeaningStub 3 "w3" "l3", mkAttrs .RELATED⟩

/-- Did an `add` call succeed (no exception)? -/
def isOkB : Except String ReducedRelations → Bool
  | .ok _ => true
  | .error _ => false

/-! ## Entity store (`etymmap/extraction/state/entities.py`, `nodes.py` Entity)

`Entity` slots are `name, occ, nat, born, died, wplink`; all but `name`
default to `None`.  `Entities` buckets entities by name and merges
compatible candidates in place. -/

/-- An `Entity` object (`nodes.py`, lines 216-234).  The address is irrelevant
to the merging logic, so it is not modelled here. -/
structure Entity where
  name : String
  occ : Option String
  nat : Option String
  born : Option String
  died : Option String
  wplink : Option String
  deriving DecidableEq

/-- One iteration of the compatibility loop of `try_merge`
(`entities.py`, lines 36-40): the attribute pair is incompatible iff both
sides are truthy and differ. -/
def compatAttr (a b : Option String) : Bool :=
  !(pyTruthyStr a && pyTruthyStr b && !(a == b))

/-- The compatibility test of `try_merge` over
`["wplink", "born", "died", "nat"]`, in loop order (the Python loop returns
`False` at the first incompatible pair). -/
def pyEntityCompat (e1 e2 : Entity) : Bool :=
  compatAttr e1.wplink e2.wplink && compatAttr e1.born e2.born &&
    compatAttr e1.died e2.died && compatAttr e1.nat e2.nat

/-- Models `"; ".join([o for o in [a, b] if o]) or None` (`entities.py`, line 43):
concatenate the truthy occupations; an empty join is `None`. -/
def joinOcc (a b : Option String) : Option String :=
  let parts := ([a, b].filter pyTruthyStr).filterMap id
  match parts with
  | [] => none
  | _ => some (String.intercalate "; " parts)

/-- Models `Entities.try_merge(e1, e2)` (`entities.py`, lines 35-49): when the four
attributes are pairwise compatible, mutate `e1` by concatenating occupations
and copying missing fields from `e2`, returning `True`; otherwise leave `e1`
untouched and return `False`.  The mutation is modelled by returning the
updated `e1`. -/
def tryMerge (e1 e2 : Entity) : Entity × Bool :=
  if pyEntityCompat e1 e2 then
    ({ e1 with
        occ := joinOcc e1.occ e2.occ,
        nat := pyOrStr e1.nat e2.nat,
        born := pyOrStr e1.born e2.born,
        died := pyOrStr e1.died e2.died,
        wplink := pyOrStr e1.wplink e2.wplink }, true)
  else
    (e1, false)

/-- The candidate loop of `Entities.identify` (`entities.py`, lines 29-31):
merge into the first compatible bucket entry (mutating it in place) and
return it. -/
def identifyBucket : List Entity → Entity → List Entity × Option Entity
  | [], _ => ([], none)
  | c :: cs, e =>
      match tryMerge c e with
      | (c2, true) => (c2 :: cs, some c2)
      | (_, false) =>
          let r := identifyBucket cs e
          (c :: r.1, r.2)

/-- Store a bucket under a name (Python dict update). -/
def setBucket (store : List (String × List Entity)) (name : String)
    (b : List Entity) : List (String × List Entity) :=
  if store.any (fun p => p.1 == name) then
    store.map (fun p => if p.1 == name then (p.1, b) else p)
  else
    store ++ [(name, b)]

/-- Models `Entities.identify(name, template_data)` (`entities.py`, lines 26-33):
build the candidate from the template data (or a bare `Entity(name)`), merge
into the first compatible bucket entry, else append.  The template data is
modelled as the `Entity` that `Entity.from_template_data` would build. -/
def identify (store : List (String × List Entity)) (name : String)
    (td : Option Entity) : List (String × List Entity) × Entity :=
  let e := match td with
    | some d => d
    | none => ⟨name, none, none, none, none, none⟩
  let bucket := (store.lookup name).getD []
  match identifyBucket bucket e with
  | (b2, some c) => (setBucket store name b2, c)
  | (b2, none) => (setBucket store name (b2 ++ [e]), e)

/-- Claim C5 scenario: an existing entity with an occupation. -/
def c5C : Entity := ⟨"X", some "poet", none, none, none, none⟩

/-- Claim C5 scenario: incoming template data carrying the same occupation. -/
def c5E : Entity := ⟨"X", some "poet", none, none, none, none⟩

/-! ## Lexicon (`etymmap/extraction/defaults/lexicon.py`)

`single_meanings[term]` holds either one `SingleMeaningStub` or a list of
stubs (cross-language homonyms); `multi_meanings[term][language]` holds a
list of lexemes; `no_entries[term]` holds a list of `NoEntryLexeme`.
Exceptions: `dict[key]` / `list[i]` raise `KeyError` / `IndexError`;
`.language` on a list raises `AttributeError`.  Each `except` clause below
catches exactly the kind the source names. -/

/-- The Python error kinds the lexicon helpers can raise. -/
inductive PyErr where
  | keyError
  | indexError
  | attributeError
  deriving DecidableEq

/-- A value of `single_meanings[term]`: a single stub or a list of stubs. -/
inductive SMEntry where
  | one : LexemeBase → SMEntry
  | many : List LexemeBase → SMEntry
  deriving DecidableEq

/-- An element of a list returned by `Lexicon.get`.  `get` normally returns
lexemes, but the branch of `_get_stub` that returns `[with_term]` while
`with_term` is itself a list yields a nested list as the single element. -/
inductive LexItem where
  | lex : LexemeBase → LexItem
  | lexList : List LexemeBase → LexItem
  deriving DecidableEq

/-- The `Lexicon` state.  Dicts are embedded as association lists. -/
structure Lexicon where
  single_meanings : List (String × SMEntry)
  multi_meanings : List (String × List (String × List LexemeBase))
  no_entries : List (String × List LexemeBase)
  deriving DecidableEq

/-- Models `if language:` — the truthy language, if any. -/
def langKey (language : Option String) : Option String :=
  if pyTruthyStr language then language else none

/-- The `try` body of `_get_stub` (`lexicon.py`, lines 155-161): attribute
access `with_term.language` raises `AttributeError` when `with_term` is a
list (only reached when `language` is truthy). -/
def getStubTry (entry : SMEntry) (language : Option String) : Except PyErr (List LexItem) :=
  match entry with
  | .one stub =>
      match langKey language with
      | some l => if stub.language == some l then .ok [.lex stub] else .error .keyError
      | none => .ok [.lex stub]
  | .many stubs =>
      match langKey language with
      | some _ => .error .attributeError
      | none => .ok [.lexList stubs]

/-- Models `_get_stub` (`lexicon.py`, lines 152-169): look up the term in
`single_meanings` and run the `try` body; the `except AttributeError` handler
scans the stub list for the language. -/
def lexiconGetStub (lx : Lexicon) (term : String) (language : Option String) :
    Except PyErr (List LexItem) :=
  match lx.single_meanings.lookup term with
  | none => .error .keyError
  | some entry =>
      match getStubTry entry language with
      | .error .attributeError =>
          match entry with
          | .one _ => .error .attributeError
          | .many stubs =>
              match langKey language with
              | some l =>
                  match stubs.find? (fun stub => stub.language == some l) with
                  | some stub => .ok [.lex stub]
                  | none => .error .keyError
              | none => .ok (stubs.map .lex)
      | r => r

/-- Python list indexing `ls[i]`: negative indices count from the end;
out-of-range raises `IndexError`. -/
def pyGetItem (ls : List LexemeBase) (i : Int) : Except PyErr LexemeBase :=
  if 0 ≤ i then
    match ls.get? i.toNat with
    | some x => .ok x
    | none => .error .indexError
  else
    let j : Int := (ls.length : Int) + i
    if 0 ≤ j then
      match ls.get? j.toNat with
      | some x => .ok x
      | none => .error .indexError
    else .error .indexError

/-- Models `_get_multi_meaning` (`lexicon.py`, lines 171-189): with a truthy
language, index the per-language list; `sense_idx is not None` first tries
positional indexing (`IndexError` caught), keeping the lexeme only when its
`sense_idx` matches, then falls back to a scan; no language flattens all
lists. -/
def lexiconGetMulti (lx : Lexicon) (term : String) (language : Option String)
    (senseIdx : Option Int) : Except PyErr (List LexItem) :=
  match lx.multi_meanings.lookup term with
  | none => .error .keyError
  | some byLang =>
      match langKey language with
      | some l =>
          match byLang.lookup l with
          | none => .error .keyError
          | some lexemes =>
              match senseIdx with
              | some idx =>
                  let scan : Except PyErr (List LexItem) :=
                    match lexemes.find? (fun lexeme => lexeme.sense_idx == idx) with
                    | some lexeme => .ok [.lex lexeme]
                    | none => .error .keyError
                  match pyGetItem lexemes idx with
                  | .ok lexeme => if lexeme.sense_idx == idx then .ok [.lex lexeme] else scan
                  | .error _ => scan
              | none => .ok (lexemes.map .lex)
      | none => .ok (((byLang.map (·.2)).flatten).map .lex)

/-- Models `_get_no_entry` (`lexicon.py`, lines 191-198): with a truthy language,
return the first no-entry lexeme of that language or raise `KeyError`; else
return the whole per-term list. -/
def lexiconGetNoEntry (lx : Lexicon) (term : String) (language : Option String) :
    Except PyErr (List LexItem) :=
  match lx.no_entries.lookup term with
  | none => .error .keyError
  | some ls =>
      match langKey language with
      | some l =>
          match ls.find? (fun lexeme => lexeme.language == some l) with
          | some lexeme => .ok [.lex lexeme]
          | none => .error .keyError
      | none => .ok (ls.map .lex)

/-- Models `Lexicon.get` (`lexicon.py`, lines 121-131): try the three helpers in
order, catching exactly `KeyError` at each level; a final `KeyError` yields
the empty list. -/
def Lexicon.get (lx : Lexicon) (term : String) (language : Option String)
    (senseIdx : Option Int) : Except PyErr (List LexItem) :=
  match lexiconGetStub lx term language with
  | .error .keyError =>
      match lexiconGetMulti lx term language senseIdx with
      | .error .keyError =>
          match lexiconGetNoEntry lx term language with
          | .error .keyError => .ok []
          | r => r
      | r => r
  | r => r

/-- The stub list of a `single_meanings` entry. -/
def SMEntry.stubs : SMEntry → List LexemeBase
  | .one s => [s]
  | .many ls => ls

/-- The term is stored in none of the three lexicon stores. -/
def termAbsent (lx : Lexicon) (term : String) : Prop :=
  lx.single_meanings.lookup term = none ∧ lx.multi_meanings.lookup term = none ∧
    lx.no_entries.lookup term = none

/-- The language `l` matches no lexeme stored for the term: no single-meaning
stub carries it, the multi-meaning slot has no entry under it, and no
no-entry lexeme carries it. -/
def langUnmatched (lx : Lexicon) (term l : String) : Prop :=
  (∀ entry, lx.single_meanings.lookup term = some entry →
      ∀ s ∈ entry.stubs, s.language ≠ some l) ∧
    (∀ byLang, lx.multi_meanings.lookup term = some byLang → byLang.lookup l = none) ∧
    (∀ ls, lx.no_entries.lookup term = some ls → ∀ x ∈ ls, x.language ≠ some l)

/-- Claim C10 witness lexicon: one single-meaning stub, one multi-meaning
slot, one no-entry lexeme. -/
def c10Lex : Lexicon :=
  ⟨[("cat", .one (SingleMeaningStub 0 "cat" "en"))],
    [("bank", [("en", [⟨1, "bank", some "en", 0⟩, ⟨2, "bank", some "en", 1⟩])])],
    [("dog", [⟨3, "dog", some "fr", 0⟩])]⟩

/-! ## Etymology chain interpretation (`etymmap/extraction/section_extractor.py`)

The `EtymologySectionExtractor.extract` loop walks the rule-processed chain
left to right.  The wikitext parser and the rule engine are external to this
claim's code anchor; chain elements are embedded as the tagged tuples,
`LinkNormalization`s and leftover raw elements that the rules produce, and the
injected `State.node_resolver` is a function parameter. -/

/-- A template-data / link-target dictionary, restricted to the keys the
modelled operations read. -/
structure TD where
  term : Option String
  language : Option String
  name : Option String
  t : Option String
  deriving DecidableEq

/-- The `link_target` of a `LinkNormalization`: a single target dict, a tuple
of target dicts, or the `NO_TARGET` sentinel.  (`link_target = None` raises a
`ValueError` in `relate_to_context_lexeme` and never occurs in rule output.) -/
inductive LinkTarget where
  | single : TD → LinkTarget
  | multi : List TD → LinkTarget
  | noTarget : LinkTarget
  deriving DecidableEq

/-- A `LinkNormalization` (`specific/templates.py`, lines 13-26): the
relation dict `{type, text?, uncertain?}` plus the link target. -/
structure LinkNorm where
  rtype : RelationType
  text : Option String
  uncertain : Option Bool
  link_target : LinkTarget
  deriving DecidableEq

/-- A node produced by the node resolver. -/
inductive XNode where
  | lexeme : LexemeBase → XNode
  | entity : Entity → XNode
  | phantom : XNode
  deriving DecidableEq

/-- A relation emitted by `relate_to_context_lexeme`: the attributes are
`RelationAttributes(normalization.relation["type"])`, i.e. only the type is
carried over. -/
structure ERel where
  src : XNode
  tgt : XNode
  rtype : RelationType
  deriving DecidableEq

/-- Models `relate_to_context_lexeme` (`section_extractor.py`, lines 38-105)
restricted to a `LinkNormalization` argument (the only shape the chain
interpreter passes): resolve each target dict (NO_TARGET yields one Phantom),
drop unresolved targets, and orient every emitted relation by
`ctx_lexeme_source`. -/
def relateToContextLexeme (resolver : TD → LexemeBase → Option XNode)
    (n : LinkNorm) (ctx : LexemeBase) (ctxIsSource : Bool) : List ERel :=
  let targets : List (Option XNode) :=
    match n.link_target with
    | .multi tds => tds.map (fun td => resolver td ctx)
    | .single td => [resolver td ctx]
    | .noTarget => [some .phantom]
  let targets := targets.filterMap id
  if targets.isEmpty then []
  else if ctxIsSource then targets.map (fun t => ⟨.lexeme ctx, t, n.rtype⟩)
  else targets.map (fun t => ⟨t, .lexeme ctx, n.rtype⟩)

/-- An element of a rule-processed chain: a tagged `(name, value)` tuple, a
`LinkNormalization`, or any other leftover element (raw token, unhandled
template, markup), which the interpreter loop ignores. -/
inductive ChainElem where
  | tag : String → String → ChainElem
  | norm : LinkNorm → ChainElem
  | raw : String → ChainElem
  deriving DecidableEq

/-- The `EtymologySectionExtractor` configuration flags
(`section_extractor.py`, lines 226-239; all default `True`). -/
structure EtymologyConfig where
  chain_resolution : Bool
  only_first_sentence : Bool
  only_in_from_chain : Bool
  deriving DecidableEq

/-- The loop state of `extract` (`section_extractor.py`, lines 269-274). -/
structure ChainState where
  lastOriginSource : Option LexemeBase
  fromChainCheck : Bool
  firstSentenceCheck : Bool
  rels : List ERel
  deriving DecidableEq

/-- One iteration of the chain-interpretation loop (`section_extractor.py`,
lines 276-319): a `LinkNormalization` is related to `last_origin_source`
instead of the context lexeme when chain resolution, the from-chain flag and
the first-sentence flag all allow it; a single emitted relation whose type is
a non-ROOT ORIGIN descendant with a lexeme source becomes the next
`last_origin_source`; `("Punct", ".")` resets the chain; a `From` tag
re-arms the from-chain flag. -/
def extractStep (cfg : EtymologyConfig) (resolver : TD → LexemeBase → Option XNode)
    (ctx : LexemeBase) (st : ChainState) (e : ChainElem) : ChainState :=
  match e with
  | .norm n =>
      let relations :=
        match st.lastOriginSource with
        | some s =>
            if cfg.chain_resolution && st.fromChainCheck && st.firstSentenceCheck then
              relateToContextLexeme resolver n s false
            else
              relateToContextLexeme resolver n ctx false
        | none => relateToContextLexeme resolver n ctx false
      let st2 :=
        if cfg.chain_resolution && relations.length == 1 then
          match relations with
          | [lastRelation] =>
              if lastRelation.rtype.is_a .ORIGIN && !(lastRelation.rtype.is_a .ROOT) then
                match lastRelation.src with
                | .lexeme src =>
                    { st with lastOriginSource := some src,
                              fromChainCheck := !cfg.only_in_from_chain }
                | _ => st
              else st
          | _ => st
        else st
      { st2 with rels := st.rels ++ relations }
  | .tag "Punct" "." =>
      { st with lastOriginSource := none,
                firstSentenceCheck := !cfg.only_first_sentence,
                fromChainCheck := !cfg.only_in_from_chain }
  | e2 =>
      if !st.fromChainCheck then
        match e2 with
        | .tag "From" _ => { st with fromChainCheck := true }
        | _ => st
      else st

/-- The chain-interpretation part of `EtymologySectionExtractor.extract`
(`section_extractor.py`, lines 269-320), applied to a rule-processed chain. -/
def extractChain (cfg : EtymologyConfig) (resolver : TD → LexemeBase → Option XNode)
    (ctx : LexemeBase) (chain : List ChainElem) : List ERel :=
  (chain.foldl (extractStep cfg resolver ctx)
    ⟨none, !cfg.only_in_from_chain, true, []⟩).rels

/-- Claim C4 scenario, the context lexeme `(word, en, 0)`. -/
def c4Ctx : LexemeBase := ⟨0, "word", some "en", 0⟩

/-- Claim C4 scenario, the Middle English lexeme `(word, enm, 0)`. -/
def c4Enm : LexemeBase := ⟨1, "word", some "enm", 0⟩

/-- Claim C4 scenario, the Old English lexeme `(word, ang, 0)`. -/
def c4Ang : LexemeBase := ⟨2, "word", some "ang", 0⟩

/-- Claim C4 scenario resolver: models `resolve_template` over a lexicon
holding exactly the single-meaning stubs `(word, en)`, `(word, enm)` and
`(word, ang)` — term and language fall back to the context lexeme's values
and `_identify_lexeme` returns the unique stub. -/
def c4Resolver (td : TD) (ctx : LexemeBase) : Option XNode :=
  let term := match td.term with | some t => t | none => ctx.term
  let language := match td.language with | some l => some l | none => ctx.language
  if term == "word" && language == some "en" then some (.lexeme c4Ctx)
  else if term == "word" && language == some "enm" then some (.lexeme c4Enm)
  else if term == "word" && language == some "ang" then some (.lexeme c4Ang)
  else none

/-- The normalization of `{{inh|en|enm|word}}`: positional parameters
`(language, language, term)`, semantics `TargetWithSourceLang`, default
relation `INHERITANCE` — the first language labels the source, the rest the
one target `{language: enm, term: word}` (`specific_en/templates.py`,
lines 32-44, `template_helper.py`, lines 135-155). -/
def c4LN1 : LinkNorm := ⟨.INHERITANCE, none, none, .single ⟨some "word", some "enm", none, none⟩⟩

/-- The normalization of `{{inh|enm|ang|word}}`. -/
def c4LN2 : LinkNorm := ⟨.INHERITANCE, none, none, .single ⟨some "word", some "ang", none, none⟩⟩

/-- The rule-processed chain of the section text
`From {{inh|en|enm|word}}, from {{inh|enm|ang|word}}.`:
`to_sequence` linearizes it to `["From", T1, ", from", T2, "."]`; the
punctuation annotator splits `", from"` into `("Punct", ",")` and `"from"`
and turns `"."` into `("Punct", ".")`; the from annotator tags `"From"` and
`"from"` (keeping the matched text as value); `ApplyTemplateNormalization`
converts both `inh` templates; every other default rule leaves this chain
unchanged (no language names, mentions, relation words, quotes, brackets or
plus signs occur, and `FromRule` only rewrites RELATED normalizations). -/
def c4Chain : List ChainElem :=
  [ .tag "From" "From", .norm c4LN1, .tag "Punct" ",",
    .tag "From" "from", .norm c4LN2, .tag "Punct" "." ]

/-- Claim C4 scenario: the relations the extractor emits for the chain, with
all three flags at their defaults (`True`). -/
def c4Extract : List ERel :=
  extractChain ⟨true, true, true⟩ c4Resolver c4Ctx c4Chain

/-! ## Theorems -/

/-- Claim C8: for every relation type `t` in the closed enumeration, `t.is_a t`
holds, `t.is_a RELATED` holds, and `t.directed` equals `t.is_a ORIGIN`. -/
theorem c8_ontology :
    ∀ t : RelationType,
      t.is_a t = true ∧ t.is_a .RELATED = true ∧ t.directed = t.is_a .ORIGIN := by
  decide

/-- Claim C2, counterexample: two distinct `LexemeBase` objects (addresses 0
and 1) with the same `(term, language, sense_idx)` triple are NOT equal under
Python `==`, refuting the claimed equivalence of equality and triple match. -/
theorem c2_counterexample :
    ¬ (pyLexemeEq ⟨0, "cat", some "en", 0⟩ ⟨1, "cat", some "en", 0⟩ = true
        ↔ LexemeBase.pyId ⟨0, "cat", some "en", 0⟩ = LexemeBase.pyId ⟨1, "cat", some "en", 0⟩) := by
  decide

/-- Claim C2, amended: `LexemeBase` equality (and hashing) is object identity
(address equality); it is the `id` PROPERTY, not `==`, that carries the
`(term, language, sense_idx)` triple, and two `pyId` values match exactly when
the triples match. -/
theorem c2_identity_is_address :
    ∀ a b : LexemeBase,
      (pyLexemeEq a b = true ↔ a.addr = b.addr) ∧
        (a.pyId = b.pyId ↔ a.term = b.term ∧ a.language = b.language ∧ a.sense_idx = b.sense_idx) := by
  intro a b
  constructor
  · simp [pyLexemeEq]
  · simp [LexemeBase.pyId]

/-- Claim C1: evaluation of the code at the failing input.  After `finalize()`
the store accepts a further `add` (no error is raised), the freshly cleared
`related` store is mutated by it, and the `finalized` flag is still `False` —
because `finalize` never executes `self.finalized = True`.  This contradicts
the claimed (and clearly intended) rejection of adds after finalize. -/
theorem c1_add_after_finalize_not_rejected :
    isOkB ((c1Store.finalize).add c1Late) = true ∧
      (addOrSame (c1Store.finalize) c1Late).related =
        [⟨c1Late.src, c1Late.tgt, c1Late.attrs⟩] ∧
      (c1Store.finalize).related = [] ∧
      (c1Store.finalize).finalized = false := by
  decide

/-- Claim C3: adding `(A,B,RELATED)`, then `(A,B,LEARNED_BORROWING)`, then
`(A,B,BORROWING)` and finalizing yields a final graph with exactly the one
edge `A → B` of type `LEARNED_BORROWING` (the RELATED edge is dropped for the
more specific directed edge; the later, more general BORROWING is merged into
the existing more specific type). -/
theorem c3_type_upgrade :
    c3Final.graph = [⟨c3A, c3B, .LEARNED_BORROWING, mkAttrs .LEARNED_BORROWING⟩] := by
  decide

/-- Claim C6: after adding the COMPOUND edges `A→B, B→C, C→A, C→D` and running
`remove_cycles`, `origin` holds exactly the edge `C→D`,
`origin_cycles_and_parallel_edges` holds exactly three edges, and `origin` is
acyclic. -/
theorem c6_cycle_shelving :
    c6State.origin = [⟨c6N 2, c6N 3, mkAttrs .COMPOUND⟩] ∧
      c6State.ocp.length = 3 ∧ isAcyclic c6State.origin = true := by
  decide

/-- Every HISTORICAL descendant is directed (HISTORICAL sits under ORIGIN). -/
theorem histImpliesDirected :
    ∀ t : RelationType, t.is_a .HISTORICAL = true → t.directed = true := by
  decide

/-- Claim C7: with a language tree configured, adding a relation whose type is
a HISTORICAL descendant, whose endpoints both carry a language, and where the
tree has a path from the target language to the source language, stores the
edge with source and target swapped. -/
theorem c7_historical_swap (tree : List (String × String)) (src tgt : LexemeBase)
    (t : RelationType) (txt : Option String) (unc : Option Bool) (srcLang tgtLang : String)
    (hist : t.is_a .HISTORICAL = true)
    (hsl : src.language = some srcLang) (htl : tgt.language = some tgtLang)
    (hpath : hasPath tree tgtLang srcLang = true)
    (hne : sameObj src tgt = false) :
    (emptyStore (some tree)).add ⟨src, tgt, ⟨t, txt, unc⟩⟩ =
      .ok { emptyStore (some tree) with origin := [⟨tgt, src, ⟨t, txt, unc⟩⟩] } := by
  have hdir : t.directed = true := histImpliesDirected t hist
  have hemp : tree.isEmpty = false := by
    cases tree with
    | nil => simp [hasPath, treeNodes] at hpath
    | cons e es => rfl
  simp [ReducedRelations.add, hne, hdir, addDirected, hemp, orderHistAccurate, hist,
    hsl, htl, hpath, emptyStore, getEdgeData, setDiEdge, removeDiEdge]

/-- Claim C7, witness: with the tree `ang → enm → en`, adding
`Relation(en-node, enm-node, HISTORICAL)` stores the edge
`enm-node → en-node`. -/
theorem c7_witness :
    (emptyStore (some c7Tree)).add
        ⟨⟨0, "test", some "en", 0⟩, ⟨1, "test", some "enm", 0⟩, ⟨.HISTORICAL, none, none⟩⟩ =
      .ok { emptyStore (some c7Tree) with
              origin := [⟨⟨1, "test", some "enm", 0⟩, ⟨0, "test", some "en", 0⟩,
                          ⟨.HISTORICAL, none, none⟩⟩] } :=
  c7_historical_swap c7Tree _ _ _ _ _ "en" "enm" (by decide) rfl rfl (by decide) (by decide)

/-- Claim C9, counterexample: the same logical entry sequence run at two
different address assignments yields different final graphs (the stored
orientation of the RELATED edge flips), because `_add_related` canonicalizes
the endpoint pair by the BUILTIN `id(...)` — the run-dependent object
address — not by the stable node id. -/
theorem c9_counterexample : c9Run 0 1 ≠ c9Run 1 0 := by
  decide

/-- Helper for claim C9: the whole add/finalize pipeline for one RELATED
relation, with symbolic nodes whose addresses are already in canonical
order. -/
theorem c9_core (n1 n2 : LexemeBase) (hne : sameObj n1 n2 = false)
    (hlt : n1.addr < n2.addr) :
    ((addOrSame (emptyStore none) ⟨n1, n2, mkAttrs .RELATED⟩).finalize).graph =
      [⟨n1, n2, .RELATED, mkAttrs .RELATED⟩] := by
  have h1 : RelationType.directed .RELATED = false := by decide
  have h2 : RelationType.is_a .RELATED .SIBLING = false := by decide
  have hadd : addOrSame (emptyStore none) ⟨n1, n2, mkAttrs .RELATED⟩ =
      { emptyStore none with related := [⟨n1, n2, mkAttrs .RELATED⟩] } := by
    simp [addOrSame, ReducedRelations.add, mkAttrs, h1, h2, hne, addRelated, emptyStore,
      getEdgeData, setDiEdge, hlt]
  rw [hadd]
  rfl

/-- Claim C9, amended: the final graph is deterministic for a given entry
order AND a given address assignment; any two runs whose addresses order the
two endpoints the same way produce identical (projected) final graphs.  It is
the relative address order, not a stable node id, that fixes the stored
orientation of the RELATED edge. -/
theorem c9_deterministic_per_addresses :
    ∀ a b : Nat, a < b →
      c9Run a b = [(("w1", some "l1"), ("w2", some "l2"), .RELATED)] := by
  intro a b h
  have hne : sameObj (SingleMeaningStub a "w1" "l1") (SingleMeaningStub b "w2" "l2") = false := by
    simp [sameObj, SingleMeaningStub]
    exact Nat.ne_of_lt h
  unfold c9Run
  rw [c9_core _ _ hne h]
  rfl

/-- Claim C9, witness: a run at addresses `(2, 5)` produces the same projected
final graph as the run at `(0, 1)`. -/
theorem c9_witness : c9Run 2 5 = [(("w1", some "l1"), ("w2", some "l2"), .RELATED)] :=
  c9_deterministic_per_addresses 2 5 (by decide)

/-- Truthiness of `None`. -/
theorem pyTruthyStr_none : pyTruthyStr none = false := rfl

/-- Joining a one-element list is that element. -/
theorem intercalate_singleton (sep s : String) : String.intercalate sep [s] = s := rfl

/-- When the incoming occupation is falsy, the occupation merge keeps a truthy
existing occupation and turns a falsy one into `None`. -/
theorem joinOcc_no_rhs (a b : Option String) (hb : pyTruthyStr b = false) :
    joinOcc a b = if pyTruthyStr a = true then a else none := by
  cases a with
  | none => simp [joinOcc, pyTruthyStr_none, hb]
  | some s =>
      by_cases ha : pyTruthyStr (some s) = true
      · rw [if_pos ha]
        simp [joinOcc, ha, hb, intercalate_singleton]
      · rw [if_neg ha]
        simp [Bool.not_eq_true] at ha
        simp [joinOcc, ha, hb]

/-- When the incoming occupation is falsy, the occupation merge is idempotent. -/
theorem joinOcc_idem (a b : Option String) (hb : pyTruthyStr b = false) :
    joinOcc (joinOcc a b) b = joinOcc a b := by
  rw [joinOcc_no_rhs a b hb]
  by_cases ha : pyTruthyStr a = true
  · rw [if_pos ha, joinOcc_no_rhs a b hb, if_pos ha]
  · rw [if_neg ha, joinOcc_no_rhs none b hb, if_neg (by simp [pyTruthyStr_none])]

/-- Python `or` absorbs a repeated right operand. -/
theorem pyOrStr_absorb (a b : Option String) :
    pyOrStr (pyOrStr a b) b = pyOrStr a b := by
  by_cases ha : pyTruthyStr a = true <;> by_cases hb : pyTruthyStr b = true <;>
    simp [pyOrStr, ha, hb]

/-- A compatible attribute pair stays compatible after copying the missing
side. -/
theorem compatAttr_pyOrStr (a b : Option String) (h : compatAttr a b = true) :
    compatAttr (pyOrStr a b) b = true := by
  by_cases ha : pyTruthyStr a = true
  all_goals by_cases hb : pyTruthyStr b = true
  all_goals simp [compatAttr, pyOrStr, ha, hb] at h ⊢
  all_goals simp_all

/-- Claim C5, counterexample: for `c` and `e` both named `X` with occupation
`poet` (and all of `wplink`, `born`, `died`, `nat` absent, hence pairwise
compatible), merging twice differs from merging once — the occupation is
concatenated again — and a second `identify` call with the same arguments
changes the returned entity. -/
theorem c5_counterexample :
    (tryMerge (tryMerge c5C c5E).1 c5E).1 ≠ (tryMerge c5C c5E).1 ∧
      pyEntityCompat c5C c5E = true ∧
      (identify (identify [("X", [c5C])] "X" (some c5E)).1 "X" (some c5E)).2 ≠
        (identify [("X", [c5C])] "X" (some c5E)).2 := by
  decide

/-- Claim C5, amended: merging `e` into `c` twice has the same effect as
merging once PROVIDED the incoming occupation is absent (falsy); with an
occupation present, every merge appends `"; occ"` again, so the merge is not
idempotent in general. -/
theorem c5_merge_idempotent_without_occ (c e : Entity)
    (hmerged : (tryMerge c e).2 = true) (hocc : pyTruthyStr e.occ = false) :
    (tryMerge (tryMerge c e).1 e).1 = (tryMerge c e).1 := by
  by_cases h : pyEntityCompat c e = true
  · have h4 : compatAttr c.wplink e.wplink = true ∧ compatAttr c.born e.born = true ∧
        compatAttr c.died e.died = true ∧ compatAttr c.nat e.nat = true := by
      simpa [pyEntityCompat, Bool.and_eq_true, and_assoc] using h
    have hm1 : (tryMerge c e).1 =
        { c with
            occ := joinOcc c.occ e.occ,
            nat := pyOrStr c.nat e.nat,
            born := pyOrStr c.born e.born,
            died := pyOrStr c.died e.died,
            wplink := pyOrStr c.wplink e.wplink } := by
      rw [tryMerge, if_pos h]
    have hcompat2 : pyEntityCompat (tryMerge c e).1 e = true := by
      rw [hm1]
      simp only [pyEntityCompat, Bool.and_eq_true]
      exact ⟨⟨⟨compatAttr_pyOrStr _ _ h4.1, compatAttr_pyOrStr _ _ h4.2.1⟩,
        compatAttr_pyOrStr _ _ h4.2.2.1⟩, compatAttr_pyOrStr _ _ h4.2.2.2⟩
    rw [tryMerge, if_pos hcompat2]
    rw [hm1]
    simp [joinOcc_idem _ _ hocc, pyOrStr_absorb]
  · rw [tryMerge, if_neg h] at hmerged
    simp at hmerged

/-- Claim C5, witness: a concrete compatible pair (shared `born`, occupation
absent on the incoming side) merges idempotently. -/
theorem c5_witness :
    (tryMerge (tryMerge ⟨"X", some "poet", none, some "1900", none, none⟩
          ⟨"X", none, some "fr", some "1900", none, none⟩).1
        ⟨"X", none, some "fr", some "1900", none, none⟩).1 =
      (tryMerge ⟨"X", some "poet", none, some "1900", none, none⟩
        ⟨"X", none, some "fr", some "1900", none, none⟩).1 :=
  c5_merge_idempotent_without_occ _ _ (by decide) (by decide)

/-- The `try` body of `_get_stub` on a single stub yields the stub or a
`KeyError`, never an `AttributeError`. -/
theorem getStubTry_one (s : LexemeBase) (language : Option String) :
    (∃ r, getStubTry (.one s) language = .ok r) ∨
      getStubTry (.one s) language = .error .keyError := by
  unfold getStubTry
  cases hk : langKey language with
  | none => exact .inl ⟨_, rfl⟩
  | some l =>
      by_cases hsl : s.language == some l
      · exact .inl ⟨[.lex s], by simp [hsl]⟩
      · right
        simp only [hsl]
        rfl

/-- The `try` body of `_get_stub` on a stub list raises `AttributeError`
exactly when the language is truthy. -/
theorem getStubTry_many (ls : List LexemeBase) (language : Option String) :
    (langKey language = none ∧ getStubTry (.many ls) language = .ok [.lexList ls]) ∨
      (∃ l, langKey language = some l ∧
        getStubTry (.many ls) language = .error .attributeError) := by
  unfold getStubTry
  cases hk : langKey language with
  | none => exact .inl ⟨rfl, rfl⟩
  | some l => exact .inr ⟨l, rfl, rfl⟩

/-- Models `_get_stub` only ever escapes with a `KeyError`: the `AttributeError` of
the list case is caught by its own handler. -/
theorem getStub_err (lx : Lexicon) (term : String) (language : Option String) (e : PyErr)
    (h : lexiconGetStub lx term language = .error e) : e = .keyError := by
  unfold lexiconGetStub at h
  cases hlk : lx.single_meanings.lookup term with
  | none =>
      rw [hlk] at h
      exact (Except.error.inj h).symm
  | some entry =>
      rw [hlk] at h
      dsimp only at h
      cases entry with
      | one s =>
          rcases getStubTry_one s language with ⟨r, hr⟩ | hr <;> rw [hr] at h <;> simp_all
      | many stubs =>
          rcases getStubTry_many stubs language with ⟨hk, hr⟩ | ⟨l, hk, hr⟩ <;>
            rw [hr] at h
          · simp_all
          · simp only [hk] at h
            cases hf : stubs.find? (fun stub => stub.language == some l) <;>
              rw [hf] at h <;> simp_all

/-- Models `_get_multi_meaning` only ever escapes with a `KeyError`: the
`IndexError` of the positional probe is caught in place. -/
theorem getMulti_err (lx : Lexicon) (term : String) (language : Option String)
    (senseIdx : Option Int) (e : PyErr)
    (h : lexiconGetMulti lx term language senseIdx = .error e) : e = .keyError := by
  unfold lexiconGetMulti at h
  cases hlk : lx.multi_meanings.lookup term with
  | none =>
      rw [hlk] at h
      exact (Except.error.inj h).symm
  | some byLang =>
      rw [hlk] at h
      dsimp only at h
      cases hk : langKey language with
      | none => rw [hk] at h; simp_all
      | some l =>
          rw [hk] at h
          dsimp only at h
          cases hbl : byLang.lookup l with
          | none => rw [hbl] at h; simp_all
          | some lexemes =>
              rw [hbl] at h
              dsimp only at h
              cases senseIdx with
              | none => simp_all
              | some idx =>
                  dsimp only at h
                  cases hgi : pyGetItem lexemes idx with
                  | ok lexeme =>
                      rw [hgi] at h
                      dsimp only at h
                      by_cases hsi : lexeme.sense_idx == idx
                      · simp only [hsi] at h; simp_all
                      · simp only [hsi] at h
                        cases hf : lexemes.find? (fun lx2 => lx2.sense_idx == idx) <;>
                          simp_all
                  | error e2 =>
                      rw [hgi] at h
                      dsimp only at h
                      cases hf : lexemes.find? (fun lx2 => lx2.sense_idx == idx) <;>
                        simp_all

/-- Models `_get_no_entry` only ever escapes with a `KeyError`. -/
theorem getNoEntry_err (lx : Lexicon) (term : String) (language : Option String) (e : PyErr)
    (h : lexiconGetNoEntry lx term language = .error e) : e = .keyError := by
  unfold lexiconGetNoEntry at h
  cases hlk : lx.no_entries.lookup term with
  | none =>
      rw [hlk] at h
      exact (Except.error.inj h).symm
  | some ls =>
      rw [hlk] at h
      dsimp only at h
      cases hk : langKey language with
      | none => rw [hk] at h; simp_all
      | some l =>
          rw [hk] at h
          dsimp only at h
          cases hf : ls.find? (fun lexeme => lexeme.language == some l) <;> simp_all

/-- Claim C10: `Lexicon.get` is total — for every term, language and sense
index it returns a list and never raises (every internal `KeyError`,
`IndexError` and `AttributeError` is caught); in particular a term stored in
none of the three stores, or a language matching no stored lexeme for the
term, yields the empty list. -/
theorem c10_get_total (lx : Lexicon) (term : String) (language : Option String)
    (senseIdx : Option Int) :
    (∃ r, lx.get term language senseIdx = .ok r) ∧
      (termAbsent lx term → lx.get term language senseIdx = .ok []) ∧
      (∀ l, language = some l → l ≠ "" → langUnmatched lx term l →
        lx.get term language senseIdx = .ok []) := by
  refine ⟨?_, ?_, ?_⟩
  · cases h1 : lexiconGetStub lx term language with
    | ok r => exact ⟨r, by simp [Lexicon.get, h1]⟩
    | error e =>
        have he := getStub_err lx term language e h1
        subst he
        cases h2 : lexiconGetMulti lx term language senseIdx with
        | ok r => exact ⟨r, by simp [Lexicon.get, h1, h2]⟩
        | error e2 =>
            have he2 := getMulti_err lx term language senseIdx e2 h2
            subst he2
            cases h3 : lexiconGetNoEntry lx term language with
            | ok r => exact ⟨r, by simp [Lexicon.get, h1, h2, h3]⟩
            | error e3 =>
                have he3 := getNoEntry_err lx term language e3 h3
                subst he3
                exact ⟨[], by simp [Lexicon.get, h1, h2, h3]⟩
  · rintro ⟨ha, hb, hc⟩
    simp [Lexicon.get, lexiconGetStub, lexiconGetMulti, lexiconGetNoEntry, ha, hb, hc]
  · rintro l rfl hlne ⟨h1, h2, h3⟩
    have hlang : langKey (some l) = some l := by
      simp [langKey, pyTruthyStr, hlne]
    have hstub : lexiconGetStub lx term (some l) = .error .keyError := by
      unfold lexiconGetStub
      cases hlk : lx.single_meanings.lookup term with
      | none => rfl
      | some entry =>
          dsimp only
          cases entry with
          | one s =>
              have hs : s.language ≠ some l := h1 _ hlk s (by simp [SMEntry.stubs])
              simp [getStubTry, hlang, hs]
          | many stubs =>
              have hfind : stubs.find? (fun stub => stub.language == some l) = none := by
                rw [List.find?_eq_none]
                intro x hx
                simpa using h1 _ hlk x (by simp [SMEntry.stubs, hx])
              simp [getStubTry, hlang, hfind]
    have hmulti : lexiconGetMulti lx term (some l) senseIdx = .error .keyError := by
      unfold lexiconGetMulti
      cases hlk : lx.multi_meanings.lookup term with
      | none => rfl
      | some byLang =>
          dsimp only
          rw [hlang]
          dsimp only
          rw [h2 _ hlk]
    have hnoe : lexiconGetNoEntry lx term (some l) = .error .keyError := by
      unfold lexiconGetNoEntry
      cases hlk : lx.no_entries.lookup term with
      | none => rfl
      | some ls =>
          dsimp only
          have hfind : ls.find? (fun lexeme => lexeme.language == some l) = none := by
            rw [List.find?_eq_none]
            intro x hx
            simpa using h3 _ hlk x hx
          rw [hlang]
          simp [hfind]
    simp [Lexicon.get, hstub, hmulti, hnoe]

/-- Claim C10, witness: on the concrete witness lexicon, an absent term and a
language matched by no stored lexeme both yield the empty list. -/
theorem c10_witness :
    c10Lex.get "fish" none none = .ok [] ∧
      c10Lex.get "cat" (some "de") (some 0) = .ok [] := by
  constructor
  · refine (c10_get_total c10Lex "fish" none none).2.1 ?_
    unfold termAbsent
    refine ⟨by decide, by decide, by decide⟩
  · refine (c10_get_total c10Lex "cat" (some "de") (some 0)).2.2 "de" rfl (by decide) ?_
    refine ⟨?_, ?_, ?_⟩
    · intro entry he s hs
      have hl : c10Lex.single_meanings.lookup "cat" =
          some (.one (SingleMeaningStub 0 "cat" "en")) := by decide
      rw [hl] at he
      cases he
      simp [SMEntry.stubs] at hs
      subst hs
      decide
    · intro byLang hb
      have hl : c10Lex.multi_meanings.lookup "cat" = none := by decide
      rw [hl] at hb
      cases hb
    · intro ls hn
      have hl : c10Lex.no_entries.lookup "cat" = none := by decide
      rw [hl] at hn
      cases hn

/-- Claim C4, counterexample: on the chain of
`From {{inh|en|enm|word}}, from {{inh|enm|ang|word}}.` with context lexeme
`(word, en, 0)`, the extractor does NOT emit the claimed pair
`(word,en,0) → (word,enm,0)`, `(word,enm,0) → (word,ang,0)` — the emitted
relations run in the opposite direction (the resolved ancestor is the source,
the context lexeme the target, because `relate_to_context_lexeme` is called
with `ctx_lexeme_source = False`). -/
theorem c4_counterexample :
    c4Extract ≠
      [⟨.lexeme c4Ctx, .lexeme c4Enm, .INHERITANCE⟩,
        ⟨.lexeme c4Enm, .lexeme c4Ang, .INHERITANCE⟩] := by
  decide

/-- Claim C4, amended: while chain resolution, the from-chain flag and the
first-sentence flag all allow it and a `last_origin_source` is set, a
`LinkNormalization` is related to `last_origin_source` instead of the context
lexeme; concretely the extractor emits exactly the two INHERITANCE relations
`(word,enm,0) → (word,en,0)` and `(word,ang,0) → (word,enm,0)` — the second
`from` anchored on the previous relation's source, the enm lexeme, not on the
context lexeme. -/
theorem c4_chain_resolution :
    (∀ (cfg : EtymologyConfig) (resolver : TD → LexemeBase → Option XNode)
        (ctx : LexemeBase) (st : ChainState) (n : LinkNorm) (s : LexemeBase),
        cfg.chain_resolution = true → st.lastOriginSource = some s →
        st.fromChainCheck = true → st.firstSentenceCheck = true →
        (extractStep cfg resolver ctx st (.norm n)).rels =
          st.rels ++ relateToContextLexeme resolver n s false) ∧
      c4Extract =
        [⟨.lexeme c4Enm, .lexeme c4Ctx, .INHERITANCE⟩,
          ⟨.lexeme c4Ang, .lexeme c4Enm, .INHERITANCE⟩] := by
  constructor
  · intro cfg resolver ctx st n s h1 h2 h3 h4
    simp [extractStep, h1, h2, h3, h4]
  · decide

/-- Claim C4, witness: at the state reached just before the second
normalization of the scenario (`last_origin_source` = the enm lexeme, both
flags on), the step relates the normalization to the enm lexeme. -/
theorem c4_witness :
    (extractStep ⟨true, true, true⟩ c4Resolver c4Ctx
        ⟨some c4Enm, true, true, []⟩ (.norm c4LN2)).rels =
      relateToContextLexeme c4Resolver c4LN2 c4Enm false := by
  have h := c4_chain_resolution.1 ⟨true, true, true⟩ c4Resolver c4Ctx
    ⟨some c4Enm, true, true, []⟩ c4LN2 c4Enm rfl rfl rfl rfl
  simpa using h

end Etymmap
